import Mathlib

/-!
Verification development for the finance-buddy statement-import pipeline.

The TypeScript source is shallowly embedded below: every definition mirrors a
function of the repository (file and function named in its doc comment).
JavaScript numbers are embedded as `Int`/`Nat` (all amounts in the pipeline are
exact integer cents obtained from two-decimal strings, where `Math.round(x*100)`
coincides with exact decimal arithmetic) and categorization confidences as `Rat`
(at every reachable confidence value the IEEE-double expressions of the source
evaluate to exactly the same rational, e.g. `0.6 + 3*0.1 === 0.9` holds in
doubles). Strings are Lean `String`s; the source lower-cases and matches ASCII
statement text, where JavaScript and Lean case conversion agree.
-/

namespace FinanceBuddy

/-! ## SHA-256 (node:crypto `createHash("sha256")`), executable over `Nat`

The identity generator and the import merger both digest a composite string
with SHA-256 and keep the first 24 hex characters.  The digest is embedded
bit-exactly (FIPS 180-4) so that identifier equalities and inequalities are
decidable on concrete inputs. 32-bit words are `Nat` kept below `2^32`.
-/

def add32 (a b : Nat) : Nat := (a + b) % 4294967296

def rotr32 (r x : Nat) : Nat := (x / 2 ^ r + x % 2 ^ r * 2 ^ (32 - r)) % 4294967296

def not32 (x : Nat) : Nat := Nat.xor x 4294967295

def shaCh (e f g : Nat) : Nat := Nat.xor (Nat.land e f) (Nat.land (not32 e) g)

def shaMaj (a b c : Nat) : Nat :=
  Nat.xor (Nat.xor (Nat.land a b) (Nat.land a c)) (Nat.land b c)

def bigSigma0 (x : Nat) : Nat := Nat.xor (Nat.xor (rotr32 2 x) (rotr32 13 x)) (rotr32 22 x)

def bigSigma1 (x : Nat) : Nat := Nat.xor (Nat.xor (rotr32 6 x) (rotr32 11 x)) (rotr32 25 x)

def smallSigma0 (x : Nat) : Nat := Nat.xor (Nat.xor (rotr32 7 x) (rotr32 18 x)) (x / 2 ^ 3)

def smallSigma1 (x : Nat) : Nat := Nat.xor (Nat.xor (rotr32 17 x) (rotr32 19 x)) (x / 2 ^ 10)

def shaK : List Nat :=
  [1116352408, 1899447441, 3049323471, 3921009573, 961987163,
   1508970993, 2453635748, 2870763221, 3624381080, 310598401,
   607225278, 1426881987, 1925078388, 2162078206, 2614888103,
   3248222580, 3835390401, 4022224774, 264347078, 604807628,
   770255983, 1249150122, 1555081692, 1996064986, 2554220882,
   2821834349, 2952996808, 3210313671, 3336571891, 3584528711,
   113926993, 338241895, 666307205, 773529912, 1294757372,
   1396182291, 1695183700, 1986661051, 2177026350, 2456956037,
   2730485921, 2820302411, 3259730800, 3345764771, 3516065817,
   3600352804, 4094571909, 275423344, 430227734, 506948616,
   659060556, 883997877, 958139571, 1322822218, 1537002063,
   1747873779, 1955562222, 2024104815, 2227730452, 2361852424,
   2428436474, 2756734187, 3204031479, 3329325298]

/-- The eight-word SHA-256 hash state. -/
structure Hash8 where
  a : Nat
  b : Nat
  c : Nat
  d : Nat
  e : Nat
  f : Nat
  g : Nat
  h : Nat
deriving Repr, DecidableEq

def shaH0 : Hash8 :=
  ⟨1779033703, 3144134277, 1013904242, 2773480762,
   1359893119, 2600822924, 528734635, 1541459225⟩

/-- Message-schedule extension: given the 16 block words in reverse order,
prepend the remaining 48 words (newest first). -/
def schedExtend : Nat → List Nat → List Nat
  | 0, r => r
  | n + 1, r =>
      schedExtend n
        (add32 (add32 (r.getD 15 0) (smallSigma0 (r.getD 14 0)))
          (add32 (r.getD 6 0) (smallSigma1 (r.getD 1 0))) :: r)

/-- The 64 schedule words of a block given as 16 words. -/
def msgSchedule (w16 : List Nat) : List Nat := (schedExtend 48 w16.reverse).reverse

def shaRound (s : Hash8) (kw : Nat × Nat) : Hash8 :=
  let t1 := add32 (add32 (add32 s.h (bigSigma1 s.e)) (add32 (shaCh s.e s.f s.g) kw.1)) kw.2
  let t2 := add32 (bigSigma0 s.a) (shaMaj s.a s.b s.c)
  ⟨add32 t1 t2, s.a, s.b, s.c, add32 s.d t1, s.e, s.f, s.g⟩

def shaCompress (s : Hash8) (w16 : List Nat) : Hash8 :=
  let t := (shaK.zip (msgSchedule w16)).foldl shaRound s
  ⟨add32 s.a t.a, add32 s.b t.b, add32 s.c t.c, add32 s.d t.d,
   add32 s.e t.e, add32 s.f t.f, add32 s.g t.g, add32 s.h t.h⟩

def bytesToWords : List Nat → List Nat
  | b0 :: b1 :: b2 :: b3 :: rest =>
      (b0 * 16777216 + b1 * 65536 + b2 * 256 + b3) :: bytesToWords rest
  | _ => []

def chunks64Go : Nat → List Nat → List (List Nat)
  | 0, _ => []
  | _, [] => []
  | n + 1, l => l.take 64 :: chunks64Go n (l.drop 64)

/-- Split a byte list into 64-byte blocks.  The fuel `l.length` is enough:
each step removes at least one element from a nonempty list. -/
def chunks64 (l : List Nat) : List (List Nat) := chunks64Go l.length l

def lenBytes8 (n : Nat) : List Nat :=
  [n / 2 ^ 56 % 256, n / 2 ^ 48 % 256, n / 2 ^ 40 % 256, n / 2 ^ 32 % 256,
   n / 2 ^ 24 % 256, n / 2 ^ 16 % 256, n / 2 ^ 8 % 256, n % 256]

/-- FIPS 180-4 padding: append `0x80`, zero fill to 56 mod 64, then the
64-bit big-endian bit length. -/
def shaPad (msg : List Nat) : List Nat :=
  msg ++ 128 :: List.replicate ((119 - msg.length % 64) % 64) 0 ++ lenBytes8 (8 * msg.length)

def word4 (w : Nat) : List Nat := [w / 16777216 % 256, w / 65536 % 256, w / 256 % 256, w % 256]

def sha256 (msg : List Nat) : List Nat :=
  let s := ((chunks64 (shaPad msg)).map bytesToWords).foldl shaCompress shaH0
  [s.a, s.b, s.c, s.d, s.e, s.f, s.g, s.h].flatMap word4

def hexDigit (n : Nat) : Char :=
  "0123456789abcdef".data.getD n '0'

def bytesToHex : List Nat → List Char
  | [] => []
  | b :: t => hexDigit (b / 16) :: hexDigit (b % 16) :: bytesToHex t

/-- UTF-8 encoding of one character (the source digests with `"utf8"`). -/
def utf8Char (c : Char) : List Nat :=
  let n := c.toNat
  if n < 128 then [n]
  else if n < 2048 then [192 + n / 64, 128 + n % 64]
  else if n < 65536 then [224 + n / 4096, 128 + n / 64 % 64, 128 + n % 64]
  else [240 + n / 262144, 128 + n / 4096 % 64, 128 + n / 64 % 64, 128 + n % 64]

def utf8Bytes (s : String) : List Nat := s.data.flatMap utf8Char

/-- Lowercase hex digest of the UTF-8 bytes of a string. -/
def sha256hex (s : String) : String := ⟨bytesToHex (sha256 (utf8Bytes s))⟩

/-! ## Character classes and string helpers

`isJsWs` is the exact character set of the JavaScript regex class `\s`
(ECMA-262 WhiteSpace ∪ LineTerminator), which is also the set trimmed by
`String.prototype.trim`. -/

def isJsWs (c : Char) : Bool :=
  let n := c.toNat
  (9 ≤ n && n ≤ 13) || n == 32 || n == 160 || n == 5760 ||
    (8192 ≤ n && n ≤ 8202) || n == 8232 || n == 8233 || n == 8239 ||
    n == 8287 || n == 12288 || n == 65279

def isJsDigit (c : Char) : Bool := 48 ≤ c.toNat && c.toNat ≤ 57

def isAmtChar (c : Char) : Bool := isJsDigit c || c == ','

/-- ECMA-262 LineTerminator, the characters excluded by the regex atom `.`. -/
def isLineTerm (c : Char) : Bool :=
  c == '\n' || c == '\r' || c.toNat == 8232 || c.toNat == 8233

/-- Substring test, the embedding of `String.prototype.includes`. -/
def listContainsSub : List Char → List Char → Bool
  | hay, needle =>
    needle.isPrefixOf hay ||
      match hay with
      | [] => false
      | _ :: t => listContainsSub t needle

def strIncludes (s sub : String) : Bool := listContainsSub s.data sub.data

/-- The embedding of `String.prototype.toLowerCase` on the ASCII statement
text the pipeline handles. -/
def lowerStr (s : String) : String := ⟨s.data.map Char.toLower⟩

def trimWs (l : List Char) : List Char :=
  ((l.dropWhile isJsWs).reverse.dropWhile isJsWs).reverse

/-- Embedding of `.replace(/\s+/g, " ")`: every maximal whitespace run becomes
one space. -/
def collapseWsGo : Bool → List Char → List Char
  | _, [] => []
  | prevWs, c :: t =>
    if isJsWs c then
      if prevWs then collapseWsGo true t else ' ' :: collapseWsGo true t
    else c :: collapseWsGo false t

def collapseWs (l : List Char) : List Char := collapseWsGo false l

def stripCommas (l : List Char) : List Char := l.filter (fun c => c ≠ ',')

def digitsVal (l : List Char) : Nat := l.foldl (fun a c => 10 * a + (c.toNat - 48)) 0

/-- Stable insertion sort; the element being inserted precedes every element it
compares `le` to, so earlier input elements precede tied later ones — the
stability the ECMA-262 `Array.prototype.sort` guarantees. -/
def insertLe (le : α → α → Bool) (x : α) : List α → List α
  | [] => [x]
  | y :: ys => if le x y then x :: y :: ys else y :: insertLe le x ys

def insertionSortBy (le : α → α → Bool) : List α → List α
  | [] => []
  | x :: xs => insertLe le x (insertionSortBy le xs)

/-! ## Line Parser (src pdf parser: regex passes hand-compiled)

The two statement regexes are embedded as explicit backtracking matchers over
`List Char`, preserving JS semantics: leftmost start position first; at a
position the greedy `\s+` before the description tries its maximal run first
and shrinks, while the lazy description `[\s\S]+?` (or `.+?` for the
single-line format) grows from one character; the remaining atoms — `\s+`
before an amount (whose follower `[-\d,]` is never whitespace), the greedy
`[\d,]+` (whose follower `.` is never a digit or comma), and the optional
`-?` and `(?:\/(\d{2}))?` groups (whose skip-branches fail immediately on the
consumed character) — backtrack vacuously, so they are matched greedily and
committed. -/

def monthOk (c0 c1 : Char) : Bool :=
  (c0 == '0' && '1' ≤ c1 && c1 ≤ '9') || (c0 == '1' && '0' ≤ c1 && c1 ≤ '2')

def dayOk (c0 c1 : Char) : Bool :=
  (c0 == '0' && '1' ≤ c1 && c1 ≤ '9') || ((c0 == '1' || c0 == '2') && isJsDigit c1) ||
    (c0 == '3' && (c1 == '0' || c1 == '1'))

/-- Match `(0[1-9]|1[0-2])\/(0[1-9]|[12]\d|3[01])(?:\/(\d{2}))?` at the head:
month, day, and the year alternatives in JS preference order (with the
optional year first when it is syntactically present). -/
def dateAt (l : List Char) :
    Option (List Char × List Char × List (Option (List Char) × List Char)) :=
  match l with
  | c0 :: c1 :: '/' :: c2 :: c3 :: rest =>
    if monthOk c0 c1 && dayOk c2 c3 then
      let alts :=
        match rest with
        | '/' :: y1 :: y2 :: rest2 =>
          if isJsDigit y1 && isJsDigit y2 then
            [(some [y1, y2], rest2), (none, rest)]
          else [(none, rest)]
        | _ => [(none, rest)]
      some ([c0, c1], [c2, c3], alts)
    else none
  | _ => none

/-- Match greedy `\s+` whose continuation cannot start with whitespace:
require and consume the maximal whitespace run. -/
def wsThen (l : List Char) : Option (List Char) :=
  let w := (l.takeWhile isJsWs).length
  if w == 0 then none else some (l.drop w)

/-- Match `([\d,]+\.\d{2})` at the head, returning the captured text and the
rest.  The greedy `[\d,]+` commits to its maximal run: a shorter run would
leave a digit or comma where `\.` must match. -/
def amtAt (l : List Char) : Option (List Char × List Char) :=
  let ds := l.takeWhile isAmtChar
  if ds.isEmpty then none
  else
    match l.drop ds.length with
    | '.' :: d1 :: d2 :: rest =>
      if isJsDigit d1 && isJsDigit d2 then some (ds ++ ['.', d1, d2], rest) else none
    | _ => none

/-- The lookahead `(?=\s*\n|\s*$|\s+\D)` of the single-amount regex (with the
`m` flag, so `$` also matches before a newline): succeeds when the whitespace
run ahead contains a newline, or runs to the end of input, or covers at least
one character and is followed (possibly inside itself) by a non-digit. -/
def singleLookahead (l : List Char) : Bool :=
  let w := (l.takeWhile isJsWs).length
  (l.take w).contains '\n' || w == l.length ||
    (List.range w).any fun j =>
      match l.drop (j + 1) with
      | c :: _ => !isJsDigit c
      | [] => false

/-- Backtracking over the `\s+` / lazy-description split after the date:
the greedy `\s+` tries its maximal run first and shrinks, and for each run the
lazy description grows from one character; the first `tail` success wins.
`descOk` is the character class of the description atom (`[\s\S]` or `.`). -/
def descSearch (descOk : Char → Bool) (tail : List Char → Option β) (r : List Char) :
    Option (List Char × β) :=
  let m := (r.takeWhile isJsWs).length
  (List.range m).findSome? fun i =>
    let afterWs := r.drop (m - i)
    (List.range afterWs.length).findSome? fun j =>
      let desc := afterWs.take (j + 1)
      if desc.all descOk then
        match tail (afterWs.drop (j + 1)) with
        | some b => some (desc, b)
        | none => none
      else none

/-- Match groups of `BoA_TWO_AMOUNT_RE`: raw month, day, optional year,
description span, and the two amount-column captures. -/
structure TwoM where
  mm : List Char
  dd : List Char
  yy : Option (List Char)
  desc : List Char
  col1 : List Char
  col2 : List Char
deriving Repr, DecidableEq

/-- Match groups of `BoA_SINGLE_AMOUNT_RE` and `CAPITAL_ONE_TX_RE`: raw month,
day, optional year, description span, and the amount capture (for the
single-amount regex possibly with a leading minus, commas kept). -/
structure SingleM where
  mm : List Char
  dd : List Char
  yy : Option (List Char)
  desc : List Char
  amt : List Char
deriving Repr, DecidableEq

def tailTwo (l : List Char) : Option (List Char × List Char × List Char) := do
  let l1 ← wsThen l
  let (a1, l2) ← amtAt l1
  let l3 ← wsThen l2
  let (a2, l4) ← amtAt l3
  pure (a1, a2, l4)

def matchTwoAt (l : List Char) : Option (TwoM × List Char) := do
  let (mm, dd, alts) ← dateAt l
  alts.findSome? fun alt =>
    (descSearch (fun _ => true) tailTwo alt.2).map fun d =>
      (⟨mm, dd, alt.1, d.1, d.2.1, d.2.2.1⟩, d.2.2.2)

def tailSingle (l : List Char) : Option (List Char × List Char) := do
  let l1 ← wsThen l
  match l1 with
  | '-' :: l2 => do
    let (a, l3) ← amtAt l2
    if singleLookahead l3 then pure ('-' :: a, l3) else none
  | _ => do
    let (a, l3) ← amtAt l1
    if singleLookahead l3 then pure (a, l3) else none

def matchSingleAt (l : List Char) : Option (SingleM × List Char) := do
  let (mm, dd, alts) ← dateAt l
  alts.findSome? fun alt =>
    (descSearch (fun _ => true) tailSingle alt.2).map fun d =>
      (⟨mm, dd, alt.1, d.1, d.2.1⟩, d.2.2)

def tailCap (l : List Char) : Option (List Char × List Char) := do
  let l1 ← wsThen l
  amtAt l1

def matchCapAt (l : List Char) : Option (SingleM × List Char) := do
  let (mm, dd, alts) ← dateAt l
  alts.findSome? fun alt =>
    (descSearch (fun c => !isLineTerm c) tailCap alt.2).map fun d =>
      (⟨mm, dd, alt.1, d.1, d.2.1⟩, d.2.2)

/-- The `regex.exec` loop of a `g`-flagged regex: search for the leftmost
match from the current position, emit it, continue after its end.  Every match
here consumes at least one character, so `l.length + 1` steps of fuel cover
every iteration. -/
def execGo (matchAt : List Char → Option (α × List Char)) : Nat → List Char → List α
  | 0, _ => []
  | n + 1, l =>
    match matchAt l with
    | some (m, rest) => m :: execGo matchAt n rest
    | none =>
      match l with
      | [] => []
      | _ :: t => execGo matchAt n t

def execAll (matchAt : List Char → Option (α × List Char)) (l : List Char) : List α :=
  execGo matchAt (l.length + 1) l

/-! ## Data model and identity generation (pdf parser module) -/

inductive TxType
  | debit
  | credit
deriving Repr, DecidableEq

/-- `ParsedTransaction` of the pdf parser module. -/
structure ParsedTransaction where
  date : String
  description : String
  amountCents : Int
  externalId : Option String
  type : TxType
deriving Repr, DecidableEq

/-- `normalizeDateFromGroups`: two-digit years get `2000 +`; a missing year
group falls back to `new Date().getFullYear()`, embedded as the explicit
`currentYear` parameter. -/
def normalizeDateFromGroups (currentYear : Nat) (mm dd : List Char)
    (yy : Option (List Char)) : String :=
  let y := match yy with
    | some v => 2000 + digitsVal v
    | none => currentYear
  toString y ++ "-" ++ ⟨mm⟩ ++ "-" ++ ⟨dd⟩

/-- `hashTransactionId`: sha256 hex digest truncated to its first 24
characters. -/
def hashTransactionId (input : String) : String := ⟨(sha256hex input).data.take 24⟩

/-- `generateTransactionIdTwoAmount`: digest of
`mm-dd-<chosen amount column string>-<trimmed raw description>`. -/
def generateTransactionIdTwoAmount (m : TwoM) (amountCol : List Char) : String :=
  hashTransactionId (⟨m.mm⟩ ++ "-" ++ ⟨m.dd⟩ ++ "-" ++ (⟨amountCol⟩ : String) ++ "-" ++ ⟨trimWs m.desc⟩)

/-- `generateTransactionIdSingle`: digest of
`mm-dd-<raw amount capture>-<trimmed raw description>`. -/
def generateTransactionIdSingle (m : SingleM) : String :=
  hashTransactionId (⟨m.mm⟩ ++ "-" ++ ⟨m.dd⟩ ++ "-" ++ (⟨m.amt⟩ : String) ++ "-" ++ ⟨trimWs m.desc⟩)

/-- `Math.round(parseFloat(s) * 100)` for a comma-free decimal string with two
fraction digits (optionally negative): exact integer cents. -/
def parseCentsPos (l : List Char) : Int :=
  let ip := l.takeWhile isJsDigit
  match l.drop ip.length with
  | '.' :: d1 :: d2 :: _ =>
    (digitsVal ip * 100 + (d1.toNat - 48) * 10 + (d2.toNat - 48) : Nat)
  | _ => (digitsVal ip * 100 : Nat)

def parseCents (l : List Char) : Int :=
  match l with
  | '-' :: r => -parseCentsPos r
  | _ => parseCentsPos l

/-- Lines 55–73 of the pdf parser: one two-column match to at most one
transaction (none when both columns are zero). -/
def twoAmountTx (currentYear : Nat) (m : TwoM) : Option ParsedTransaction :=
  let date := normalizeDateFromGroups currentYear m.mm m.dd m.yy
  let description : String := ⟨trimWs (collapseWs m.desc)⟩
  let col1Str := stripCommas m.col1
  let col2Str := stripCommas m.col2
  let col1Cents := parseCents col1Str
  let col2Cents := parseCents col2Str
  let amountCents := if col1Cents ≠ 0 then col1Cents else col2Cents
  let amountStr := if col1Cents ≠ 0 then col1Str else col2Str
  if amountCents ≠ 0 then
    some
      { date := date, description := description, amountCents := amountCents,
        externalId := some (generateTransactionIdTwoAmount m amountStr),
        type := if col1Cents ≠ 0 then TxType.credit else TxType.debit }
  else none

/-- The dedup key `${date}:${description}:${amountCents}` built from an
already-parsed transaction (line 77). -/
def txKeyOf (t : ParsedTransaction) : String :=
  t.date ++ ":" ++ t.description ++ ":" ++ toString t.amountCents

/-- The dedup key of a single-amount match (line 85): absolute cents. -/
def singleKey (currentYear : Nat) (m : SingleM) : String :=
  normalizeDateFromGroups currentYear m.mm m.dd m.yy ++ ":" ++
    (⟨trimWs (collapseWs m.desc)⟩ : String) ++ ":" ++
    toString (parseCents (stripCommas m.amt)).natAbs

/-- The transaction a single-amount match contributes when its key is new
(lines 88–95): a leading minus on the (comma-stripped) amount string means
debit, its absence credit; the magnitude is the absolute value. -/
def singleTx (currentYear : Nat) (m : SingleM) : ParsedTransaction :=
  { date := normalizeDateFromGroups currentYear m.mm m.dd m.yy,
    description := ⟨trimWs (collapseWs m.desc)⟩,
    amountCents := ((parseCents (stripCommas m.amt)).natAbs : Int),
    externalId := some (generateTransactionIdSingle m),
    type :=
      if (stripCommas m.amt).head? = some '-' then TxType.debit else TxType.credit }

/-- Lines 80–97 of the pdf parser: one step of the single-amount fallback
loop over the accumulated `(transactions, seen)` state. -/
def singleStep (currentYear : Nat) (st : List ParsedTransaction × List String)
    (m : SingleM) : List ParsedTransaction × List String :=
  let key := singleKey currentYear m
  if st.2.contains key then st
  else (st.1 ++ [singleTx currentYear m], key :: st.2)

/-- The two-column pass of `parseBoATransactions` (lines 53–75). -/
def twoColumnPass (currentYear : Nat) (text : String) : List ParsedTransaction :=
  (execAll matchTwoAt text.data).filterMap (twoAmountTx currentYear)

/-- `parseBoATransactions`: the two-column pass, then the single-amount
fallback pass deduplicated against the keys of the two-column output. -/
def parseBoATransactions (currentYear : Nat) (text : String) : List ParsedTransaction :=
  let twoTxs := twoColumnPass currentYear text
  let seen := twoTxs.map txKeyOf
  ((execAll matchSingleAt text.data).foldl (singleStep currentYear) (twoTxs, seen)).1

/-- Lines 108–118: one Capital One match to a transaction (trim only, no
whitespace collapse; always a debit). -/
def capTx (currentYear : Nat) (m : SingleM) : ParsedTransaction :=
  { date := normalizeDateFromGroups currentYear m.mm m.dd m.yy,
    description := ⟨trimWs m.desc⟩,
    amountCents := parseCents (stripCommas m.amt),
    externalId := some (generateTransactionIdSingle m),
    type := TxType.debit }

def parseCapitalOneTransactions (currentYear : Nat) (text : String) :
    List ParsedTransaction :=
  (execAll matchCapAt text.data).map (capTx currentYear)

inductive Bank
  | bofa
  | capital_one
  | unknown
deriving Repr, DecidableEq

/-- `detectBank`: fixed-priority substring search. -/
def detectBank (text : String) : Bank :=
  if strIncludes text "Bank of America" then Bank.bofa
  else if strIncludes text "Capital One" then Bank.capital_one
  else Bank.unknown

/-! ## Text Extractor (`extractPageTextInReadingOrder`)

A page item is embedded already well-typed (the runtime `filter` of the source
keeps exactly the items with a string `str` and an array `transform`, which the
embedding's type guarantees); coordinates are `Int`. -/

structure PdfItem where
  str : String
  transform : List Int
  hasEOL : Bool
deriving Repr, DecidableEq

def itemY (i : PdfItem) : Int := i.transform.getD 5 0

def itemX (i : PdfItem) : Int := i.transform.getD 4 0

/-- The sort comparator of lines 133–138: vertical descending beyond the
5-unit threshold, horizontal ascending within it. -/
def itemCmp (a b : PdfItem) : Int :=
  if (itemY a - itemY b).natAbs > 5 then itemY b - itemY a
  else itemX a - itemX b

def itemLe (a b : PdfItem) : Bool := itemCmp a b ≤ 0

/-- Lines 139–146: concatenate with `\n` after an `hasEOL` fragment and a
space otherwise, with no trailing separator. -/
def joinItems : List PdfItem → String
  | [] => ""
  | [i] => i.str
  | i :: rest => i.str ++ (if i.hasEOL then "\n" else " ") ++ joinItems rest

def extractPageTextInReadingOrder (items : List PdfItem) : String :=
  joinItems (insertionSortBy itemLe items)

/-! ## `parseStatement` (pure core after pdf.js page decoding) -/

structure StatementResult where
  bank : Bank
  transactions : List ParsedTransaction
  needsReview : List ParsedTransaction
deriving Repr, DecidableEq

/-- The JavaScript truthiness test `!t.externalId`: null or the empty
string. -/
def needsReviewFlag (t : ParsedTransaction) : Bool :=
  match t.externalId with
  | none => true
  | some s => s.data.isEmpty

/-- Lines 161–181 of `parseStatement`, after the pdf.js I/O boundary: each
page is a list of positioned fragments; pages are extracted in reading order,
joined with newlines, routed by `detectBank`, and transactions lacking an
identity are routed to `needsReview`. -/
def parseStatementCore (currentYear : Nat) (pages : List (List PdfItem)) :
    StatementResult :=
  let fullText := String.intercalate "\n" (pages.map extractPageTextInReadingOrder)
  let bank := detectBank fullText
  let transactions :=
    match bank with
    | Bank.bofa => parseBoATransactions currentYear fullText
    | Bank.capital_one => parseCapitalOneTransactions currentYear fullText
    | Bank.unknown => []
  { bank := bank, transactions := transactions,
    needsReview := transactions.filter needsReviewFlag }

/-! ## Reconciliation Validator (`validateExtraction`) -/

structure ValidationResult where
  valid : Bool
  calculatedEnd : Int
  difference : Int
deriving Repr, DecidableEq

def validateExtraction (transactions : List ParsedTransaction)
    (startBalanceCents endBalanceCents : Int) : ValidationResult :=
  let calculatedEnd :=
    transactions.foldl
      (fun sum tx => sum + (if tx.type = TxType.credit then tx.amountCents else -tx.amountCents))
      startBalanceCents
  { valid := (calculatedEnd - endBalanceCents).natAbs < 100,
    calculatedEnd := calculatedEnd,
    difference := calculatedEnd - endBalanceCents }

/-! ## Categorization Engine (categorize module)

Confidences are embedded as `Rat`; at every reachable value the
IEEE-double arithmetic of the source produces exactly these rationals. -/

inductive MatchField
  | name
  | merchant_name
deriving Repr, DecidableEq

inductive MatchType
  | contains
  | starts_with
  | exact
deriving Repr, DecidableEq

structure CategoryRule where
  id : String
  categoryId : String
  matchField : MatchField
  matchPattern : String
  matchType : MatchType
  isEnabled : Bool
  priority : Int
deriving Repr, DecidableEq

structure TransactionRow where
  id : String
  name : String
  merchantName : Option String
  amountCents : Int
  categoryId : Option String
deriving Repr, DecidableEq

inductive CatSource
  | rule
  | ml
  | manual
deriving Repr, DecidableEq

structure CategorizationResult where
  categoryId : Option String
  confidence : Rat
  source : CatSource
  explanation : List String
deriving Repr, DecidableEq

/-- `matchesPattern` (lines 26–37): case-insensitive; with the closed
`MatchType` variant the final `contains` branch is the `else` of the source's
string comparison chain.  The source lower-cases ASCII statement text, where
JavaScript `toLowerCase` and ASCII `lowerStr` agree. -/
def matchesPattern (field : Option String) (pattern : String) (matchType : MatchType) :
    Bool :=
  match field with
  | none => false
  | some f =>
    let lower := lowerStr f
    let pat := lowerStr pattern
    match matchType with
    | MatchType.exact => lower == pat
    | MatchType.starts_with => pat.data.isPrefixOf lower.data
    | MatchType.contains => listContainsSub lower.data pat.data

/-- The split `/\s+/` of a lowercased name; empty tokens produced at the
string edges by the JavaScript split are length 0 and never pass the
`length > 2` guard, so the maximal-run splitter is score-equivalent. -/
def splitWsRuns (s : String) : List String :=
  ((s.data.splitOnP isJsWs).map (fun l => (⟨l⟩ : String))).filter (fun w => w ≠ "")

/-- The similarity score of lines 49–53: the number of word-tokens of the new
name, of length greater than 2, contained in the lowercased historical name. -/
def similarityScore (nameLower : String) (tLower : String) : Nat :=
  ((splitWsRuns nameLower).filter fun w => w.length > 2 && strIncludes tLower w).length

/-- The scored candidate set of lines 44–56: drop identical (lowercased)
names, score, drop zero scores. -/
def scoredCandidates (name : String) (historical : List TransactionRow) :
    List (TransactionRow × Nat) :=
  let nameLower := lowerStr name
  ((historical.filter fun t => lowerStr t.name ≠ nameLower).map fun t =>
      (t, similarityScore nameLower (lowerStr t.name))).filter
    fun s => s.2 > 0

/-- The candidates stable-sorted by score descending (line 57). -/
def rankedCandidates (name : String) (historical : List TransactionRow) :
    List (TransactionRow × Nat) :=
  insertionSortBy (fun a b => b.2 ≤ a.2) (scoredCandidates name historical)

/-- `findSimilarTransactions` (lines 39–61): scored, ranked, truncated to
`limit`, and stripped back to the rows. -/
def findSimilarTransactions (name : String) (historical : List TransactionRow)
    (limit : Nat) : List TransactionRow :=
  ((rankedCandidates name historical).take limit).map fun s => s.1

/-- The `categoryVotes` record of lines 87–92: keys in first-insertion order
(JavaScript object key order), values incremented in place.  The truthiness
guard `if (t.categoryId)` skips null and empty category ids. -/
def bumpVote (votes : List (String × Nat)) (c : String) : List (String × Nat) :=
  match votes with
  | [] => [(c, 1)]
  | (k, n) :: rest => if k = c then (k, n + 1) :: rest else (k, n) :: bumpVote rest c

def tallyVotes (similar : List TransactionRow) : List (String × Nat) :=
  similar.foldl
    (fun votes t =>
      match t.categoryId with
      | some c => if c ≠ "" then bumpVote votes c else votes
      | none => votes)
    []

/-- `Object.entries(categoryVotes).sort(([, a], [, b]) => b - a)`:
stable sort by count descending. -/
def sortVotes (votes : List (String × Nat)) : List (String × Nat) :=
  insertionSortBy (fun a b => b.2 ≤ a.2) votes

/-- `(confidence * 100).toFixed(0)`: every reachable confidence times 100 is
a whole number, printed as its integer numerator. -/
def percentStr (q : Rat) : String := toString (q * 100).num

/-- The transaction view consumed by the engine. -/
structure CatTx where
  name : String
  merchantName : Option String
  amountCents : Int
deriving Repr, DecidableEq

def ruleField (tx : CatTx) (rule : CategoryRule) : Option String :=
  match rule.matchField with
  | MatchField.merchant_name => tx.merchantName
  | MatchField.name => some tx.name

def ruleMatches (tx : CatTx) (rule : CategoryRule) : Bool :=
  matchesPattern (ruleField tx rule) rule.matchPattern rule.matchType

def manualResult : CategorizationResult :=
  { categoryId := none, confidence := 0, source := CatSource.manual,
    explanation := ["No matching rule or similar transactions found"] }

/-- `Math.min` on the (never-NaN) confidence values. -/
def ratMin (a b : Rat) : Rat := if a ≤ b then a else b

def mlConfidence (count : Nat) : Rat := ratMin (95 / 100) (6 / 10 + count * (1 / 10))

def mlResult (topCategory : String) (count : Nat) : CategorizationResult :=
  { categoryId := some topCategory, confidence := mlConfidence count,
    source := CatSource.ml,
    explanation :=
      ["Similar to " ++ toString count ++ " past transactions",
       "Confidence: " ++ percentStr (mlConfidence count) ++ "%"] }

def ruleResult (rule : CategoryRule) : CategorizationResult :=
  { categoryId := some rule.categoryId, confidence := 1, source := CatSource.rule,
    explanation := ["Matched rule: \"" ++ rule.matchPattern ++ "\""] }

def sortedEnabledRules (rules : List CategoryRule) : List CategoryRule :=
  insertionSortBy (fun a b => b.priority ≤ a.priority) (rules.filter fun r => r.isEnabled)

/-- `categorizeTransaction` (lines 63–115); the source function is async but
performs no effect, so it is embedded as a pure function.  The destructuring
`const [topCategory, count] = entries[0] ?? []` followed by the truthiness
test `topCategory && count >= 2` becomes the head-option match with the
nonempty-string guard. -/
def categorizeTransaction (tx : CatTx) (rules : List CategoryRule)
    (historicalData : List TransactionRow) : CategorizationResult :=
  match (sortedEnabledRules rules).find? (ruleMatches tx) with
  | some rule => ruleResult rule
  | none =>
    let similar := findSimilarTransactions tx.name historicalData 10
    if similar.length ≥ 3 then
      match (sortVotes (tallyVotes similar)).head? with
      | some (topCategory, count) =>
        if topCategory ≠ "" ∧ count ≥ 2 then mlResult topCategory count
        else manualResult
      | none => manualResult
    else manualResult

/-! ## Import Merger (transactions server module) -/

inductive PrepSource
  | rule
  | ml
  | manual
  | llm
deriving Repr, DecidableEq

/-- `PreparedTransaction`: a parsed transaction plus its categorization. -/
structure PreparedTransaction where
  date : String
  description : String
  amountCents : Int
  externalId : Option String
  type : TxType
  categoryId : Option String
  confidence : Rat
  source : PrepSource
  explanation : List String
  suggestedMatchPattern : Option String
  likelyRecurring : Option Bool
deriving Repr, DecidableEq

/-- `stableExternalId` (lines 133–136): digest of
`${tx.date}-${tx.description}-${tx.amountCents}` — note the stored
(unsigned) `amountCents`, not the signed amount and not the parser's
composite. -/
def stableExternalId (tx : PreparedTransaction) : String :=
  hashTransactionId (tx.date ++ "-" ++ tx.description ++ "-" ++ toString tx.amountCents)

/-- The ledger row produced by `importTransactions` (lines 141–157), without
the random `crypto.randomUUID()` row id generated outside the algorithmic
core. -/
structure LedgerRowData where
  accountId : String
  externalId : String
  amountCents : Int
  date : String
  name : String
  merchantName : Option String
  categoryId : Option String
  autoCategorized : Bool
deriving Repr, DecidableEq

def importRow (accountId : String) (tx : PreparedTransaction) : LedgerRowData :=
  { accountId := accountId,
    externalId := tx.externalId.getD (stableExternalId tx),
    amountCents := if tx.type = TxType.credit then tx.amountCents else -tx.amountCents,
    date := tx.date, name := tx.description, merchantName := none,
    categoryId := tx.categoryId,
    autoCategorized := tx.source ≠ PrepSource.manual }

def importRows (accountId : String) (txs : List PreparedTransaction) :
    List LedgerRowData :=
  txs.map (importRow accountId)

/-! ## Derived sums used to state the reconciliation property -/

def creditSum (txs : List ParsedTransaction) : Int :=
  ((txs.filter fun t => t.type = TxType.credit).map fun t => t.amountCents).sum

def debitSum (txs : List ParsedTransaction) : Int :=
  ((txs.filter fun t => t.type = TxType.debit).map fun t => t.amountCents).sum

/-- The amount string the two-column pass chooses (and feeds to the identity
generator): the first column when its cents are non-zero, else the second. -/
def chosenAmtStr (m : TwoM) : List Char :=
  if parseCents (stripCommas m.col1) ≠ 0 then stripCommas m.col1 else stripCommas m.col2

/-! ## Concrete fixtures used by counterexamples and witnesses -/

def coffeeLine : String := "03/14 COFFEE SHOP 0.00 4.50"

/-- The same statement line with a doubled interior space in the description:
the normalized description, date, and absolute amount are unchanged. -/
def coffeeLineWide : String := "03/14 COFFEE  SHOP 0.00 4.50"

def payrollLine : String := "03/14 PAYROLL 1000.00 0.00"

/-- A two-column line followed by a single-amount restatement of the same
transaction (same date, normalized description, absolute amount). -/
def dedupText : String := "03/14 COFFEE SHOP 0.00 4.50\n03/14 COFFEE SHOP 4.50"

/-- The coffee transaction as prepared for import with its identity absent,
forcing the merger's recomputation path. -/
def coffeePrepared : PreparedTransaction :=
  { date := "2025-03-14", description := "COFFEE SHOP", amountCents := 450,
    externalId := none, type := TxType.debit, categoryId := none, confidence := 0,
    source := PrepSource.manual, explanation := [], suggestedMatchPattern := none,
    likelyRecurring := none }

def starHist : List TransactionRow :=
  [{ id := "1", name := "STARBUCKS #123", merchantName := none, amountCents := -500,
     categoryId := some "Dining" },
   { id := "2", name := "STARBUCKS #456", merchantName := none, amountCents := -600,
     categoryId := some "Dining" },
   { id := "3", name := "STARBUCKS DOWNTOWN", merchantName := none, amountCents := -700,
     categoryId := some "Dining" }]

def starTx : CatTx := { name := "STARBUCKS #789", merchantName := none, amountCents := -450 }

def coffeeCatTx : CatTx := { name := "COFFEE TIME", merchantName := none, amountCents := -450 }

/-- Two enabled rules both matching `coffeeCatTx`, with different priorities
and categories: the higher-priority one must win. -/
def coffeeRules : List CategoryRule :=
  [{ id := "r1", categoryId := "A", matchField := MatchField.name,
     matchPattern := "coffee", matchType := MatchType.contains, isEnabled := true,
     priority := 1 },
   { id := "r2", categoryId := "B", matchField := MatchField.name,
     matchPattern := "coffee", matchType := MatchType.contains, isEnabled := true,
     priority := 5 }]

def fragA : PdfItem := { str := "A", transform := [0, 0, 0, 0, 10, 100], hasEOL := false }

def fragB : PdfItem := { str := "B", transform := [0, 0, 0, 0, 50, 102], hasEOL := false }

/-- Two fragments whose vertical coordinates differ by exactly 5 units, with
the horizontal order opposing the vertical order. -/
def fragHi : PdfItem := { str := "A", transform := [0, 0, 0, 0, 50, 100], hasEOL := false }

def fragLo : PdfItem := { str := "B", transform := [0, 0, 0, 0, 10, 95], hasEOL := false }

def shortTxs : List ParsedTransaction :=
  [{ date := "2025-03-14", description := "RENT", amountCents := 1500,
     externalId := none, type := TxType.debit }]

def balancedTxs : List ParsedTransaction :=
  [{ date := "2025-03-14", description := "PAY", amountCents := 2500,
     externalId := none, type := TxType.credit },
   { date := "2025-03-15", description := "RENT", amountCents := 1500,
     externalId := none, type := TxType.debit }]

/-- A two-column match whose both amount columns are zero (a subtotal row). -/
def zeroM : TwoM :=
  { mm := ['0', '3'], dd := ['1', '4'], yy := none, desc := "SUBTOTAL".data,
    col1 := "0.00".data, col2 := "0.00".data }

/-- A single-amount match with a leading minus on the amount. -/
def netflixM : SingleM :=
  { mm := ['0', '3'], dd := ['1', '4'], yy := none, desc := "NETFLIX".data,
    amt := "-15.99".data }

/-- The two-column match of `coffeeLine`. -/
def coffeeTwoM : TwoM :=
  { mm := ['0', '3'], dd := ['1', '4'], yy := none, desc := "COFFEE SHOP".data,
    col1 := "0.00".data, col2 := "4.50".data }

/-- A single-amount match aligned with `coffeeTwoM`: same raw date groups,
same raw description span, amount token equal to the chosen column. -/
def coffeeSingleM : SingleM :=
  { mm := ['0', '3'], dd := ['1', '4'], yy := none, desc := "COFFEE SHOP".data,
    amt := "4.50".data }

/-- The decision of the similarity tier as a boolean: at least three
candidates and a leading vote of at least two for a nonempty category id. -/
def similarityCommitsB (tx : CatTx) (hist : List TransactionRow) : Bool :=
  3 ≤ (findSimilarTransactions tx.name hist 10).length &&
    (match (sortVotes (tallyVotes (findSimilarTransactions tx.name hist 10))).head? with
     | some (c, n) => c ≠ "" && 2 ≤ n
     | none => false)

end FinanceBuddy

namespace FinanceBuddy

/-! # Helper lemmas -/

theorem mem_insertLe {le : α → α → Bool} {x a : α} {l : List α} :
    a ∈ insertLe le x l ↔ a = x ∨ a ∈ l := by
  induction l with
  | nil => simp [insertLe]
  | cons y ys ih =>
    by_cases h : le x y
    · rw [insertLe, if_pos h]
      exact List.mem_cons
    · rw [insertLe, if_neg h, List.mem_cons, ih, List.mem_cons]
      tauto

theorem mem_insertionSortBy {le : α → α → Bool} {a : α} {l : List α} :
    a ∈ insertionSortBy le l ↔ a ∈ l := by
  induction l with
  | nil => simp [insertionSortBy]
  | cons y ys ih => simp [insertionSortBy, mem_insertLe, ih]

theorem pairwise_insertLe {le : α → α → Bool}
    (htot : ∀ a b, le a b = false → le b a = true)
    (htrans : ∀ a b c, le a b = true → le b c = true → le a c = true)
    (x : α) {l : List α} (hl : l.Pairwise fun a b => le a b = true) :
    (insertLe le x l).Pairwise fun a b => le a b = true := by
  induction l with
  | nil => simp [insertLe]
  | cons y ys ih =>
    rcases List.pairwise_cons.mp hl with ⟨hy, hys⟩
    by_cases h : le x y
    · rw [insertLe, if_pos h]
      refine List.pairwise_cons.mpr ⟨?_, hl⟩
      intro z hz
      rcases List.mem_cons.mp hz with rfl | hz
      · exact h
      · exact htrans _ _ _ h (hy z hz)
    · rw [insertLe, if_neg h]
      refine List.pairwise_cons.mpr ⟨?_, ih hys⟩
      intro z hz
      rcases mem_insertLe.mp hz with rfl | hz
      · exact htot _ _ (Bool.eq_false_iff.mpr h)
      · exact hy z hz

theorem pairwise_insertionSortBy {le : α → α → Bool}
    (htot : ∀ a b, le a b = false → le b a = true)
    (htrans : ∀ a b c, le a b = true → le b c = true → le a c = true)
    (l : List α) :
    (insertionSortBy le l).Pairwise fun a b => le a b = true := by
  induction l with
  | nil => simp [insertionSortBy]
  | cons y ys ih => exact pairwise_insertLe htot htrans y ih

theorem filter_priority_insertLe (x : CategoryRule) (l : List CategoryRule) (p : Int) :
    (insertLe (fun a b => b.priority ≤ a.priority) x l).filter (fun r => r.priority = p) =
      if x.priority = p then x :: l.filter (fun r => r.priority = p)
      else l.filter (fun r => r.priority = p) := by
  induction l with
  | nil =>
    by_cases hx : x.priority = p <;> simp [insertLe, hx]
  | cons y ys ih =>
    by_cases h : (y.priority ≤ x.priority : Bool)
    · rw [insertLe, if_pos h]
      by_cases hx : x.priority = p <;> simp [hx, List.filter_cons]
    · rw [insertLe, if_neg h]
      have hxy : x.priority < y.priority := by
        by_contra hc
        exact h (by simpa using le_of_not_lt hc)
      by_cases hx : x.priority = p
      · have hy : ¬(y.priority = p) := by
          intro hy
          rw [hy, ← hx] at hxy
          exact lt_irrefl _ hxy
        simp [List.filter_cons, hy, ih, hx]
      · by_cases hy : y.priority = p <;> simp [List.filter_cons, hy, ih, hx]

/-- Stability of the rule sort: restricted to any single priority, the sorted
list is the enabled rules in declaration order. -/
theorem sortedEnabledRules_stable (rules : List CategoryRule) (p : Int) :
    (sortedEnabledRules rules).filter (fun r => r.priority = p) =
      (rules.filter fun r => r.isEnabled).filter (fun r => r.priority = p) := by
  rw [sortedEnabledRules]
  induction rules.filter (fun r => r.isEnabled) with
  | nil => simp [insertionSortBy]
  | cons y ys ih =>
    rw [insertionSortBy, filter_priority_insertLe, ih, List.filter_cons]
    by_cases hy : y.priority = p <;> simp [hy]

/-! ### Digest length facts -/

theorem length_bytesToHex (bs : List Nat) : (bytesToHex bs).length = 2 * bs.length := by
  induction bs with
  | nil => rfl
  | cons b t ih =>
    rw [bytesToHex, List.length_cons, List.length_cons, ih, List.length_cons]
    ring

theorem length_sha256 (msg : List Nat) : (sha256 msg).length = 32 := rfl

theorem data_hashTransactionId (s : String) :
    (hashTransactionId s).data = (bytesToHex (sha256 (utf8Bytes s))).take 24 := rfl

theorem length_hashTransactionId (s : String) :
    (hashTransactionId s).data.length = 24 := by
  rw [data_hashTransactionId, List.length_take]
  have h : (bytesToHex (sha256 (utf8Bytes s))).length = 64 := by
    rw [length_bytesToHex, length_sha256]
  rw [h]
  decide

theorem hashTransactionId_not_empty (s : String) :
    (hashTransactionId s).data.isEmpty = false := by
  rw [List.isEmpty_eq_false]
  intro h
  have hl := congrArg List.length h
  rw [length_hashTransactionId] at hl
  simp at hl

/-! ### The single-amount fallback fold -/

theorem txKeyOf_singleTx (year : Nat) (m : SingleM) :
    txKeyOf (singleTx year m) = singleKey year m := rfl

theorem singleStep_mem (year : Nat) (st : List ParsedTransaction × List String)
    (m : SingleM) (h : singleKey year m ∈ st.2) : singleStep year st m = st := by
  rw [singleStep]
  simp [List.elem_eq_mem, h]

theorem singleStep_not_mem (year : Nat) (st : List ParsedTransaction × List String)
    (m : SingleM) (h : singleKey year m ∉ st.2) :
    singleStep year st m = (st.1 ++ [singleTx year m], singleKey year m :: st.2) := by
  rw [singleStep]
  simp [List.elem_eq_mem, h]

/-- The fallback fold appends only transactions built by `singleTx` whose keys
were not in the incoming seen set. -/
theorem singleFold_spec (year : Nat) (ms : List SingleM) :
    ∀ (acc : List ParsedTransaction) (seen : List String),
      ∃ news, (ms.foldl (singleStep year) (acc, seen)).1 = acc ++ news ∧
        ∀ t ∈ news, (∃ m, t = singleTx year m) ∧ txKeyOf t ∉ seen := by
  induction ms with
  | nil =>
    intro acc seen
    exact ⟨[], by simp, by simp⟩
  | cons m ms ih =>
    intro acc seen
    rw [List.foldl_cons]
    by_cases h : singleKey year m ∈ seen
    · rw [singleStep_mem year (acc, seen) m h]
      exact ih acc seen
    · rw [singleStep_not_mem year (acc, seen) m h]
      rcases ih (acc ++ [singleTx year m]) (singleKey year m :: seen) with
        ⟨news, hfold, hnews⟩
      refine ⟨singleTx year m :: news, ?_, ?_⟩
      · rw [hfold, List.append_assoc]
        rfl
      · intro t ht
        rcases List.mem_cons.mp ht with rfl | ht
        · refine ⟨⟨m, rfl⟩, ?_⟩
          rw [txKeyOf_singleTx]
          exact h
        · rcases hnews t ht with ⟨hm, hk⟩
          exact ⟨hm, fun hmem => hk (List.mem_cons_of_mem _ hmem)⟩

/-- `parseBoATransactions` is the two-column output followed by fallback
transactions none of whose dedup keys collide with a two-column key. -/
theorem parseBoA_decomp (year : Nat) (text : String) :
    ∃ news, parseBoATransactions year text = twoColumnPass year text ++ news ∧
      ∀ t ∈ news, (∃ m, t = singleTx year m) ∧
        txKeyOf t ∉ (twoColumnPass year text).map txKeyOf :=
  singleFold_spec year (execAll matchSingleAt text.data) (twoColumnPass year text)
    ((twoColumnPass year text).map txKeyOf)

/-! ### The two-column pass, case-analyzed -/

theorem twoAmountTx_credit (year : Nat) (m : TwoM)
    (h : parseCents (stripCommas m.col1) ≠ 0) :
    twoAmountTx year m =
      some
        { date := normalizeDateFromGroups year m.mm m.dd m.yy,
          description := ⟨trimWs (collapseWs m.desc)⟩,
          amountCents := parseCents (stripCommas m.col1),
          externalId := some (generateTransactionIdTwoAmount m (stripCommas m.col1)),
          type := TxType.credit } := by
  rw [twoAmountTx]
  simp [h]

theorem twoAmountTx_debit (year : Nat) (m : TwoM)
    (h1 : parseCents (stripCommas m.col1) = 0)
    (h2 : parseCents (stripCommas m.col2) ≠ 0) :
    twoAmountTx year m =
      some
        { date := normalizeDateFromGroups year m.mm m.dd m.yy,
          description := ⟨trimWs (collapseWs m.desc)⟩,
          amountCents := parseCents (stripCommas m.col2),
          externalId := some (generateTransactionIdTwoAmount m (stripCommas m.col2)),
          type := TxType.debit } := by
  rw [twoAmountTx]
  simp [h1, h2]

theorem twoAmountTx_zero (year : Nat) (m : TwoM)
    (h1 : parseCents (stripCommas m.col1) = 0)
    (h2 : parseCents (stripCommas m.col2) = 0) :
    twoAmountTx year m = none := by
  rw [twoAmountTx]
  simp [h1, h2]

theorem twoAmountTx_some_id (year : Nat) (m : TwoM) (t : ParsedTransaction)
    (h : twoAmountTx year m = some t) :
    ∃ s, t.externalId = some (hashTransactionId s) := by
  rw [twoAmountTx] at h
  by_cases hz :
      (if parseCents (stripCommas m.col1) ≠ 0 then parseCents (stripCommas m.col1)
        else parseCents (stripCommas m.col2)) ≠ 0
  · rw [if_pos hz] at h
    cases h
    exact ⟨_, rfl⟩
  · rw [if_neg hz] at h
    cases h

/-! ### Reconciliation replay as a sum -/

theorem foldl_balance (txs : List ParsedTransaction) :
    ∀ s : Int,
      txs.foldl
          (fun sum tx =>
            sum + (if tx.type = TxType.credit then tx.amountCents else -tx.amountCents)) s =
        s + creditSum txs - debitSum txs := by
  induction txs with
  | nil => intro s; simp [creditSum, debitSum]
  | cons t txs ih =>
    intro s
    rw [List.foldl_cons, ih]
    cases ht : t.type <;>
      simp [creditSum, debitSum, List.filter_cons, ht] <;> ring

/-! ### Similarity candidates -/

theorem mem_findSimilar {name : String} {hist : List TransactionRow} {lim : Nat}
    {t : TransactionRow} (h : t ∈ findSimilarTransactions name hist lim) :
    lowerStr t.name ≠ lowerStr name ∧ 0 < similarityScore (lowerStr name) (lowerStr t.name) := by
  simp only [findSimilarTransactions, rankedCandidates, scoredCandidates] at h
  rcases List.mem_map.mp h with ⟨pair, hp, rfl⟩
  have hp2 := List.take_subset _ _ hp
  have hp3 := mem_insertionSortBy.mp hp2
  rcases List.mem_filter.mp hp3 with ⟨hp4, hscore⟩
  rcases List.mem_map.mp hp4 with ⟨t0, ht0, rfl⟩
  rcases List.mem_filter.mp ht0 with ⟨_, hname⟩
  exact ⟨by simpa using hname, by simpa using hscore⟩

theorem length_findSimilar (name : String) (hist : List TransactionRow) (lim : Nat) :
    (findSimilarTransactions name hist lim).length ≤ lim := by
  simp only [findSimilarTransactions]
  rw [List.length_map, List.length_take]
  exact min_le_left _ _

/-- The truncation keeps a dominating set: every kept candidate's score is at
least every dropped candidate's score. -/
theorem take_rankedCandidates_dominates (name : String)
    (hist : List TransactionRow) (lim : Nat) :
    ∀ p ∈ (rankedCandidates name hist).take lim,
      ∀ q ∈ (rankedCandidates name hist).drop lim, q.2 ≤ p.2 := by
  have hp :=
    @pairwise_insertionSortBy (TransactionRow × Nat)
      (fun a b => b.2 ≤ a.2)
      (fun a b hab => by simp at hab ⊢; omega)
      (fun a b c hab hbc => by simp at hab hbc ⊢; omega)
      (scoredCandidates name hist)
  rw [show insertionSortBy (fun a b : TransactionRow × Nat => b.2 ≤ a.2)
        (scoredCandidates name hist) = rankedCandidates name hist from rfl,
    ← List.take_append_drop lim (rankedCandidates name hist)] at hp
  intro p hpmem q hqmem
  simpa using (List.pairwise_append.mp hp).2.2 p hpmem q hqmem

/-! # Claim theorems -/

/-- C6: the Reconciliation Validator replays the list from the starting
balance (credits added, debits subtracted, in order), `valid` holds iff the
calculated end is within 100 minor units of the stated end, a list summing
exactly to `statedEnd − statedStart` yields `valid, difference = 0`, and a
list short of the stated movement by 6500 minor units yields invalid with
difference 6500. -/
theorem reconciliation_c6 (txs : List ParsedTransaction) (s e : Int) :
    (validateExtraction txs s e).calculatedEnd = s + creditSum txs - debitSum txs ∧
    ((validateExtraction txs s e).valid = true ↔
      ((validateExtraction txs s e).calculatedEnd - e).natAbs < 100) ∧
    (creditSum txs - debitSum txs = e - s →
      validateExtraction txs s e =
        { valid := true, calculatedEnd := e, difference := 0 }) ∧
    validateExtraction shortTxs 10000 2000 =
      { valid := false, calculatedEnd := 8500, difference := 6500 } := by
  refine ⟨?_, ?_, ?_, by decide⟩
  · simpa [validateExtraction] using foldl_balance txs s
  · simp [validateExtraction]
  · intro h
    have hcal :
        txs.foldl
            (fun sum tx =>
              sum + (if tx.type = TxType.credit then tx.amountCents else -tx.amountCents)) s =
          e := by
      rw [foldl_balance]
      omega
    simp [validateExtraction, hcal]

/-- Witness for C6: a concrete list summing exactly to the stated movement
reconciles with difference zero. -/
theorem reconciliation_c6_witness :
    validateExtraction balancedTxs 0 1000 =
      { valid := true, calculatedEnd := 1000, difference := 0 } :=
  (reconciliation_c6 balancedTxs 0 1000).2.2.1 (by decide)

/-- C7 counterexample: two fragments whose vertical coordinates differ by
exactly 5 units are treated by the code as the same visual line (the code's
threshold is `> 5`, not `≥ 5`), so the lower, x-smaller fragment precedes —
the claim's strict `< 5` tolerance would order the higher fragment first. -/
theorem readingOrder_c7_counterexample :
    itemY fragHi - itemY fragLo = 5 ∧
    extractPageTextInReadingOrder [fragHi, fragLo] = "B A" := by decide

/-- C7 (amended: the same-line band is a vertical gap of at most 5 units,
inclusive): beyond the band the higher-y fragment comes first in either input
order; within the band the smaller-x fragment comes first; the claim's
concrete pair A(10,100), B(50,102) reconstructs with A before B; an empty
page yields the empty blob. -/
theorem readingOrder_c7 :
    (∀ a b : PdfItem, 5 < (itemY a - itemY b).natAbs → itemY b < itemY a →
       extractPageTextInReadingOrder [a, b] =
         a.str ++ (if a.hasEOL then "\n" else " ") ++ b.str ∧
       extractPageTextInReadingOrder [b, a] =
         a.str ++ (if a.hasEOL then "\n" else " ") ++ b.str) ∧
    (∀ a b : PdfItem, (itemY a - itemY b).natAbs ≤ 5 → itemX a < itemX b →
       extractPageTextInReadingOrder [a, b] =
         a.str ++ (if a.hasEOL then "\n" else " ") ++ b.str ∧
       extractPageTextInReadingOrder [b, a] =
         a.str ++ (if a.hasEOL then "\n" else " ") ++ b.str) ∧
    extractPageTextInReadingOrder [fragB, fragA] = "A B" ∧
    extractPageTextInReadingOrder [] = "" := by
  refine ⟨?_, ?_, by decide, rfl⟩
  · intro a b hgap hy
    have hcmp : itemCmp a b = itemY b - itemY a := if_pos hgap
    have hcmp2 : itemCmp b a = itemY a - itemY b := by
      rw [itemCmp, if_pos]
      omega
    have h1 : itemLe a b = true := by
      rw [itemLe, hcmp]
      simp
      omega
    have h2 : itemLe b a = false := by
      rw [itemLe, hcmp2]
      simp
      omega
    constructor <;>
      simp [extractPageTextInReadingOrder, insertionSortBy, insertLe, h1, h2, joinItems]
  · intro a b hband hx
    have hcmp : itemCmp a b = itemX a - itemX b := by
      rw [itemCmp, if_neg]
      omega
    have hcmp2 : itemCmp b a = itemX b - itemX a := by
      rw [itemCmp, if_neg]
      omega
    have h1 : itemLe a b = true := by
      rw [itemLe, hcmp]
      simp
      omega
    have h2 : itemLe b a = false := by
      rw [itemLe, hcmp2]
      simp
      omega
    constructor <;>
      simp [extractPageTextInReadingOrder, insertionSortBy, insertLe, h1, h2, joinItems]

/-- Witness for C7: the claim's concrete fragments, applied through the
within-band case of the amended theorem. -/
theorem readingOrder_c7_witness :
    extractPageTextInReadingOrder [fragA, fragB] =
      fragA.str ++ (if fragA.hasEOL then "\n" else " ") ++ fragB.str :=
  ((readingOrder_c7.2.1) fragA fragB (by decide) (by decide)).1

/-- C3: in the two-column pass, a non-zero first column yields a credit with
that column's magnitude, otherwise a non-zero second column yields a debit
with that magnitude, and a match with both columns zero contributes nothing;
the claim's two concrete lines parse (in the two-column pass) to
(450, debit) and (100000, credit). -/
theorem twoColumn_c3 (year : Nat) (m : TwoM) :
    (parseCents (stripCommas m.col1) ≠ 0 →
      twoAmountTx year m =
        some
          { date := normalizeDateFromGroups year m.mm m.dd m.yy,
            description := ⟨trimWs (collapseWs m.desc)⟩,
            amountCents := parseCents (stripCommas m.col1),
            externalId := some (generateTransactionIdTwoAmount m (stripCommas m.col1)),
            type := TxType.credit }) ∧
    (parseCents (stripCommas m.col1) = 0 → parseCents (stripCommas m.col2) ≠ 0 →
      twoAmountTx year m =
        some
          { date := normalizeDateFromGroups year m.mm m.dd m.yy,
            description := ⟨trimWs (collapseWs m.desc)⟩,
            amountCents := parseCents (stripCommas m.col2),
            externalId := some (generateTransactionIdTwoAmount m (stripCommas m.col2)),
            type := TxType.debit }) ∧
    (parseCents (stripCommas m.col1) = 0 → parseCents (stripCommas m.col2) = 0 →
      twoAmountTx year m = none) ∧
    (twoColumnPass 2025 coffeeLine).map (fun t => (t.amountCents, t.type)) =
      [(450, TxType.debit)] ∧
    (twoColumnPass 2025 payrollLine).map (fun t => (t.amountCents, t.type)) =
      [(100000, TxType.credit)] := by
  exact ⟨twoAmountTx_credit year m, twoAmountTx_debit year m, twoAmountTx_zero year m,
    by decide, by decide⟩

/-- Witness for C3: a concrete subtotal-style match with both columns zero
produces no transaction. -/
theorem twoColumn_c3_witness : twoAmountTx 2025 zeroM = none :=
  (twoColumn_c3 2025 zeroM).2.2.1 (by decide) (by decide)

/-- C8: a single-amount match whose dedup key is already seen contributes
nothing; an unseen match appends exactly one transaction whose type is debit
iff the (comma-stripped) amount token starts with a minus and whose magnitude
is the absolute value; at the parser level every fallback transaction's key
avoids the keys of the two-column output; and a concrete text whose second
line restates a two-column transaction gains no duplicate. -/
theorem fallback_c8 (year : Nat) (st : List ParsedTransaction × List String)
    (m : SingleM) (text : String) :
    (singleKey year m ∈ st.2 → singleStep year st m = st) ∧
    (singleKey year m ∉ st.2 →
      singleStep year st m = (st.1 ++ [singleTx year m], singleKey year m :: st.2)) ∧
    ((stripCommas m.amt).head? = some '-' → (singleTx year m).type = TxType.debit) ∧
    ((stripCommas m.amt).head? ≠ some '-' → (singleTx year m).type = TxType.credit) ∧
    (singleTx year m).amountCents = ((parseCents (stripCommas m.amt)).natAbs : Int) ∧
    (∃ news, parseBoATransactions year text = twoColumnPass year text ++ news ∧
       ∀ t ∈ news, txKeyOf t ∉ (twoColumnPass year text).map txKeyOf) ∧
    (parseBoATransactions 2025 dedupText).map
        (fun t => (t.description, t.amountCents, t.type)) =
      [("COFFEE SHOP", 450, TxType.debit), ("COFFEE SHOP 0.00", 450, TxType.credit)] := by
  refine ⟨singleStep_mem year st m, singleStep_not_mem year st m, ?_, ?_, rfl, ?_, ?_⟩
  · intro h
    simp [singleTx, h]
  · intro h
    simp [singleTx, h]
  · rcases parseBoA_decomp year text with ⟨news, h1, h2⟩
    exact ⟨news, h1, fun t ht => (h2 t ht).2⟩
  · decide

/-- Witness for C8: an unseen concrete match with a leading minus appends a
single debit transaction and records its key. -/
theorem fallback_c8_witness :
    singleStep 2025 ([], []) netflixM =
      ([singleTx 2025 netflixM], [singleKey 2025 netflixM]) :=
  (fallback_c8 2025 ([], []) netflixM "").2.1 (by decide)

/-- Every transaction of the format-A parser carries a digest identity. -/
theorem needsReviewFlag_boa (year : Nat) (text : String) (t : ParsedTransaction)
    (ht : t ∈ parseBoATransactions year text) : needsReviewFlag t = false := by
  rcases parseBoA_decomp year text with ⟨news, hdec, hnews⟩
  rw [hdec] at ht
  rcases List.mem_append.mp ht with htwo | hnew
  · rcases List.mem_filterMap.mp htwo with ⟨m, _, hm⟩
    rcases twoAmountTx_some_id year m t hm with ⟨s, hs⟩
    simp [needsReviewFlag, hs, hashTransactionId_not_empty]
  · rcases (hnews t hnew).1 with ⟨m, rfl⟩
    simp [needsReviewFlag, singleTx, generateTransactionIdSingle,
      hashTransactionId_not_empty]

/-- Every transaction of the format-B parser carries a digest identity. -/
theorem needsReviewFlag_cap (year : Nat) (text : String) (t : ParsedTransaction)
    (ht : t ∈ parseCapitalOneTransactions year text) : needsReviewFlag t = false := by
  rcases List.mem_map.mp ht with ⟨m, _, rfl⟩
  simp [needsReviewFlag, capTx, generateTransactionIdSingle, hashTransactionId_not_empty]

/-- C10: every parsing pass assigns every transaction a non-null (and
non-empty) externalId, so `parseStatement` returns an empty `needsReview`
set on every input document. -/
theorem needsReview_c10 (year : Nat) (pages : List (List PdfItem)) :
    (parseStatementCore year pages).needsReview = [] := by
  simp only [parseStatementCore]
  rw [List.filter_eq_nil_iff]
  intro t ht
  cases hb : detectBank (String.intercalate "\n" (pages.map extractPageTextInReadingOrder)) with
  | bofa =>
    rw [hb] at ht
    simp [needsReviewFlag_boa year _ t ht]
  | capital_one =>
    rw [hb] at ht
    simp [needsReviewFlag_cap year _ t ht]
  | unknown =>
    rw [hb] at ht
    cases ht

/-- C5: whenever some enabled rule matches (field chosen by `matchField`,
`matchType` applied case-insensitively), the result is the rule tier's: the
first match in the enabled rules ordered by descending priority (the sorted
list is pairwise priority-descending and, within each priority, preserves
declaration order), with confidence 1 and source rule — independently of the
history handed to the similarity tier. -/
theorem ruleTier_c5 (tx : CatTx) (rules : List CategoryRule)
    (hist : List TransactionRow)
    (h : ∃ r ∈ rules, r.isEnabled = true ∧ ruleMatches tx r = true) :
    (sortedEnabledRules rules).Pairwise (fun a b => b.priority ≤ a.priority) ∧
    (∀ p, (sortedEnabledRules rules).filter (fun r => r.priority = p) =
       (rules.filter fun r => r.isEnabled).filter (fun r => r.priority = p)) ∧
    ∃ r, (sortedEnabledRules rules).find? (ruleMatches tx) = some r ∧
      r ∈ rules ∧ r.isEnabled = true ∧ ruleMatches tx r = true ∧
      categorizeTransaction tx rules hist =
        { categoryId := some r.categoryId, confidence := 1, source := CatSource.rule,
          explanation := ["Matched rule: \"" ++ r.matchPattern ++ "\""] } := by
  refine ⟨?_, sortedEnabledRules_stable rules, ?_⟩
  · have hp :=
      @pairwise_insertionSortBy CategoryRule
        (fun a b : CategoryRule => b.priority ≤ a.priority)
        (fun a b hab => by simp at hab ⊢; omega)
        (fun a b c hab hbc => by simp at hab hbc ⊢; omega)
        (rules.filter fun r => r.isEnabled)
    exact hp.imp fun hab => by simpa using hab
  · rcases h with ⟨r0, hr0, hen0, hm0⟩
    have hmem : r0 ∈ sortedEnabledRules rules := by
      rw [sortedEnabledRules, mem_insertionSortBy]
      exact List.mem_filter.mpr ⟨hr0, hen0⟩
    have hsome : ((sortedEnabledRules rules).find? (ruleMatches tx)).isSome :=
      List.find?_isSome.mpr ⟨r0, hmem, hm0⟩
    rcases Option.isSome_iff_exists.mp hsome with ⟨r, hr⟩
    have hmr := List.find?_some hr
    have hrr : r ∈ rules ∧ r.isEnabled = true := by
      have := mem_insertionSortBy.mp (List.mem_of_find?_eq_some hr)
      exact List.mem_filter.mp this
    refine ⟨r, hr, hrr.1, hrr.2, hmr, ?_⟩
    simp only [categorizeTransaction, hr]
    rfl

/-- Witness for C5: with two enabled matching rules of priorities 1 and 5
assigning different categories, the priority-5 rule's category is assigned at
confidence 1 with source rule, despite a similarity history. -/
theorem ruleTier_c5_witness :
    (sortedEnabledRules coffeeRules).Pairwise (fun a b => b.priority ≤ a.priority) ∧
    (∀ p, (sortedEnabledRules coffeeRules).filter (fun r => r.priority = p) =
       (coffeeRules.filter fun r => r.isEnabled).filter (fun r => r.priority = p)) ∧
    ∃ r, (sortedEnabledRules coffeeRules).find? (ruleMatches coffeeCatTx) = some r ∧
      r ∈ coffeeRules ∧ r.isEnabled = true ∧ ruleMatches coffeeCatTx r = true ∧
      categorizeTransaction coffeeCatTx coffeeRules starHist =
        { categoryId := some r.categoryId, confidence := 1, source := CatSource.rule,
          explanation := ["Matched rule: \"" ++ r.matchPattern ++ "\""] } :=
  ruleTier_c5 coffeeCatTx coffeeRules starHist (by decide)

/-- C4: with no enabled rule matching, the similarity tier works from
candidates that exclude identical (case-insensitive) descriptions and zero
scores and number at most 10; when at least 3 candidates remain and the
leading category has at least 2 votes it is returned with confidence
`min(0.95, 0.6 + 0.1·count)` and the similarity source; three prior
Starbucks transactions categorized Dining give a new `STARBUCKS #789` the
category Dining at confidence 0.9. -/
theorem similarity_c4 (tx : CatTx) (rules : List CategoryRule)
    (hist : List TransactionRow)
    (hrule : ∀ r ∈ rules, r.isEnabled = true → ruleMatches tx r = false) :
    (∀ t ∈ findSimilarTransactions tx.name hist 10,
       lowerStr t.name ≠ lowerStr tx.name ∧
         0 < similarityScore (lowerStr tx.name) (lowerStr t.name)) ∧
    (findSimilarTransactions tx.name hist 10).length ≤ 10 ∧
    (∀ p ∈ (rankedCandidates tx.name hist).take 10,
       ∀ q ∈ (rankedCandidates tx.name hist).drop 10, q.2 ≤ p.2) ∧
    (∀ c n, 3 ≤ (findSimilarTransactions tx.name hist 10).length →
       (sortVotes (tallyVotes (findSimilarTransactions tx.name hist 10))).head? =
         some (c, n) →
       c ≠ "" → 2 ≤ n →
       categorizeTransaction tx rules hist =
         { categoryId := some c,
           confidence := ratMin (95 / 100) (6 / 10 + (n : Rat) * (1 / 10)),
           source := CatSource.ml,
           explanation :=
             ["Similar to " ++ toString n ++ " past transactions",
              "Confidence: " ++
                  percentStr (ratMin (95 / 100) (6 / 10 + (n : Rat) * (1 / 10))) ++
                "%"] }) ∧
    categorizeTransaction starTx [] starHist =
      { categoryId := some "Dining", confidence := 9 / 10, source := CatSource.ml,
        explanation := ["Similar to 3 past transactions", "Confidence: 90%"] } := by
  have branch : ∀ c n, 3 ≤ (findSimilarTransactions tx.name hist 10).length →
      (sortVotes (tallyVotes (findSimilarTransactions tx.name hist 10))).head? =
        some (c, n) →
      c ≠ "" → 2 ≤ n → categorizeTransaction tx rules hist = mlResult c n := by
    intro c n h3 hhead hc hn
    have hfind : (sortedEnabledRules rules).find? (ruleMatches tx) = none := by
      rw [List.find?_eq_none]
      intro r hr
      rcases List.mem_filter.mp (mem_insertionSortBy.mp hr) with ⟨hrr, hen⟩
      simp [hrule r hrr (by simpa using hen)]
    simp only [categorizeTransaction, hfind]
    rw [if_pos h3, hhead]
    show (if c ≠ "" ∧ 2 ≤ n then mlResult c n else manualResult) = _
    rw [if_pos ⟨hc, hn⟩]
  refine ⟨fun t ht => mem_findSimilar ht, length_findSimilar tx.name hist 10,
    take_rankedCandidates_dominates tx.name hist 10,
    fun c n h3 hhead hc hn => by rw [branch c n h3 hhead hc hn]; rfl, ?_⟩
  have hfindS : (sortedEnabledRules []).find? (ruleMatches starTx) = none := rfl
  simp only [categorizeTransaction, hfindS]
  rw [if_pos (by decide : (findSimilarTransactions starTx.name starHist 10).length ≥ 3),
    (by decide :
      (sortVotes (tallyVotes (findSimilarTransactions starTx.name starHist 10))).head? =
        some ("Dining", 3))]
  show (if ("Dining" : String) ≠ "" ∧ 2 ≤ 3 then mlResult "Dining" 3 else manualResult) = _
  rw [if_pos ⟨by decide, by decide⟩]
  have hconf : mlConfidence 3 = 9 / 10 := by
    rw [mlConfidence, ratMin, if_neg (by norm_num)]
    norm_num
  have hpct : percentStr (9 / 10) = "90" := by
    have h90 : ((9 : Rat) / 10 * 100) = 90 := by norm_num
    rw [percentStr, h90]
    rfl
  rw [mlResult, hconf, hpct]
  congr 1

/-- Witness for C4: the Starbucks vote applied through the general branch of
the theorem. -/
theorem similarity_c4_witness :
    categorizeTransaction starTx [] starHist =
      { categoryId := some "Dining",
        confidence := ratMin (95 / 100) (6 / 10 + ((3 : Nat) : Rat) * (1 / 10)),
        source := CatSource.ml,
        explanation :=
          ["Similar to " ++ toString (3 : Nat) ++ " past transactions",
           "Confidence: " ++
               percentStr (ratMin (95 / 100) (6 / 10 + ((3 : Nat) : Rat) * (1 / 10))) ++
             "%"] } :=
  (similarity_c4 starTx [] starHist (by decide)).2.2.2.1 "Dining" 3 (by decide)
    (by decide) (by decide) (by decide)

/-- The engine's result is always a rule, similarity, or manual record. -/
theorem categorize_cases (tx : CatTx) (rules : List CategoryRule)
    (hist : List TransactionRow) :
    (∃ r, categorizeTransaction tx rules hist = ruleResult r) ∨
    (∃ c n, categorizeTransaction tx rules hist = mlResult c n) ∨
    categorizeTransaction tx rules hist = manualResult := by
  cases hfind : (sortedEnabledRules rules).find? (ruleMatches tx) with
  | some r =>
    left
    exact ⟨r, by simp only [categorizeTransaction, hfind]⟩
  | none =>
    right
    simp only [categorizeTransaction, hfind]
    by_cases h3 : (findSimilarTransactions tx.name hist 10).length ≥ 3
    · rw [if_pos h3]
      rcases hh : (sortVotes (tallyVotes (findSimilarTransactions tx.name hist 10))).head? with _ | ⟨c, n⟩
      · right
        rfl
      · by_cases hcn : c ≠ "" ∧ 2 ≤ n
        · left
          refine ⟨c, n, ?_⟩
          show (if c ≠ "" ∧ 2 ≤ n then mlResult c n else manualResult) = mlResult c n
          rw [if_pos hcn]
        · right
          show (if c ≠ "" ∧ 2 ≤ n then mlResult c n else manualResult) = manualResult
          rw [if_neg hcn]
    · rw [if_neg h3]
      right
      rfl

/-- C9: the Categorization Engine is total, its confidence always lies in
[0, 1], and when neither the rule tier nor the similarity tier commits the
result is exactly no category, confidence 0, source manual. -/
theorem engine_c9 (tx : CatTx) (rules : List CategoryRule)
    (hist : List TransactionRow) :
    0 ≤ (categorizeTransaction tx rules hist).confidence ∧
    (categorizeTransaction tx rules hist).confidence ≤ 1 ∧
    ((∀ r ∈ rules, r.isEnabled = true → ruleMatches tx r = false) →
      similarityCommitsB tx hist = false →
      categorizeTransaction tx rules hist =
        { categoryId := none, confidence := 0, source := CatSource.manual,
          explanation := ["No matching rule or similar transactions found"] }) := by
  refine ⟨?_, ?_, ?_⟩
  · rcases categorize_cases tx rules hist with ⟨r, hr⟩ | ⟨c, n, hr⟩ | hr <;> rw [hr]
    · norm_num [ruleResult]
    · show (0 : Rat) ≤ mlConfidence n
      rw [mlConfidence, ratMin]
      split
      · norm_num
      · positivity
    · norm_num [manualResult]
  · rcases categorize_cases tx rules hist with ⟨r, hr⟩ | ⟨c, n, hr⟩ | hr <;> rw [hr]
    · norm_num [ruleResult]
    · show mlConfidence n ≤ 1
      rw [mlConfidence, ratMin]
      split
      · norm_num
      · next h => exact le_trans (le_of_not_le h) (by norm_num)
    · norm_num [manualResult]
  · intro hrule hcomm
    have hfind : (sortedEnabledRules rules).find? (ruleMatches tx) = none := by
      rw [List.find?_eq_none]
      intro r hr
      rcases List.mem_filter.mp (mem_insertionSortBy.mp hr) with ⟨hrr, hen⟩
      simp [hrule r hrr (by simpa using hen)]
    simp only [categorizeTransaction, hfind]
    by_cases h3 : (findSimilarTransactions tx.name hist 10).length ≥ 3
    · rw [if_pos h3]
      rcases hh : (sortVotes (tallyVotes (findSimilarTransactions tx.name hist 10))).head? with _ | ⟨c, n⟩
      · rfl
      · have hncn : ¬(c ≠ "" ∧ 2 ≤ n) := by
          rw [similarityCommitsB, hh] at hcomm
          simp [h3] at hcomm
          intro hcn
          have := hcomm hcn.1
          omega
        show (if c ≠ "" ∧ 2 ≤ n then mlResult c n else manualResult) = _
        rw [if_neg hncn]
        rfl
    · rw [if_neg h3]
      rfl

/-- Witness for C9: a transaction with no rules and no history resolves to
the manual tier. -/
theorem engine_c9_witness :
    categorizeTransaction { name := "X", merchantName := none, amountCents := 0 } [] [] =
      { categoryId := none, confidence := 0, source := CatSource.manual,
        explanation := ["No matching rule or similar transactions found"] } :=
  (engine_c9 { name := "X", merchantName := none, amountCents := 0 } [] []).2.2
    (by simp) (by decide)

/-- A transaction the two-column pass emits carries the digest of the raw
month and day groups, the chosen comma-stripped column string, and the
trimmed raw description span. -/
theorem twoAmountTx_externalId (year : Nat) (m : TwoM) (t : ParsedTransaction)
    (h : twoAmountTx year m = some t) :
    t.externalId = some (generateTransactionIdTwoAmount m (chosenAmtStr m)) := by
  by_cases h1 : parseCents (stripCommas m.col1) ≠ 0
  · rw [twoAmountTx_credit year m h1] at h
    cases h
    rw [chosenAmtStr, if_pos h1]
  · rw [not_ne_iff] at h1
    by_cases h2 : parseCents (stripCommas m.col2) ≠ 0
    · rw [twoAmountTx_debit year m h1 h2] at h
      cases h
      rw [chosenAmtStr, if_neg (by rw [not_ne_iff]; exact h1)]
    · rw [not_ne_iff] at h2
      rw [twoAmountTx_zero year m h1 h2] at h
      cases h

set_option maxRecDepth 1000000 in
/-- C1 counterexample: two lines whose parsed transactions agree on date,
normalized description, absolute amount (and even direction) — one
description span merely carries a doubled interior space — receive different
externalIds from the two-column pass, because the identity digests the raw
description span, not the normalized one. -/
theorem identity_c1_counterexample :
    (twoColumnPass 2025 coffeeLine).map
        (fun t => (t.date, t.description, t.amountCents, t.type)) =
      [("2025-03-14", "COFFEE SHOP", 450, TxType.debit)] ∧
    (twoColumnPass 2025 coffeeLineWide).map
        (fun t => (t.date, t.description, t.amountCents, t.type)) =
      [("2025-03-14", "COFFEE SHOP", 450, TxType.debit)] ∧
    (twoColumnPass 2025 coffeeLine).map (fun t => t.externalId) =
      [some "e1073b7d80a272dd043c4e6f"] ∧
    (twoColumnPass 2025 coffeeLineWide).map (fun t => t.externalId) =
      [some "adbbc22289b646ca993099d1"] ∧
    ("e1073b7d80a272dd043c4e6f" : String) ≠ "adbbc22289b646ca993099d1" := by decide

/-- C1 (amended: identifiers are determined by — and only by — the raw match
data each pass digests): two two-column transactions agree in externalId
whenever their raw month and day groups, chosen comma-stripped amount-column
strings, and trimmed raw description spans agree; two single-amount matches
agree whenever their raw groups agree; and the two passes assign the same
identifier exactly when the two-column chosen column string equals the
single pass's raw amount token and the other groups agree. -/
theorem identity_c1 :
    (∀ (year : Nat) (m1 m2 : TwoM) (t1 t2 : ParsedTransaction),
       twoAmountTx year m1 = some t1 → twoAmountTx year m2 = some t2 →
       m1.mm = m2.mm → m1.dd = m2.dd → trimWs m1.desc = trimWs m2.desc →
       chosenAmtStr m1 = chosenAmtStr m2 → t1.externalId = t2.externalId) ∧
    (∀ m1 m2 : SingleM, m1.mm = m2.mm → m1.dd = m2.dd → m1.amt = m2.amt →
       trimWs m1.desc = trimWs m2.desc →
       generateTransactionIdSingle m1 = generateTransactionIdSingle m2) ∧
    (∀ (m1 : TwoM) (m2 : SingleM), m1.mm = m2.mm → m1.dd = m2.dd →
       chosenAmtStr m1 = m2.amt → trimWs m1.desc = trimWs m2.desc →
       generateTransactionIdTwoAmount m1 (chosenAmtStr m1) =
         generateTransactionIdSingle m2) := by
  refine ⟨?_, ?_, ?_⟩
  · intro year m1 m2 t1 t2 h1 h2 hmm hdd hdesc hamt
    rw [twoAmountTx_externalId year m1 t1 h1, twoAmountTx_externalId year m2 t2 h2]
    rw [generateTransactionIdTwoAmount, generateTransactionIdTwoAmount,
      hmm, hdd, hdesc, hamt]
  · intro m1 m2 hmm hdd hamt hdesc
    rw [generateTransactionIdSingle, generateTransactionIdSingle,
      hmm, hdd, hamt, hdesc]
  · intro m1 m2 hmm hdd hamt hdesc
    rw [generateTransactionIdTwoAmount, generateTransactionIdSingle,
      hmm, hdd, hamt, hdesc]

/-- Witness for C1: the coffee line's two-column match and a single-amount
match over the same raw groups (amount token `4.50` equal to the chosen
column) receive the same identifier. -/
theorem identity_c1_witness :
    generateTransactionIdTwoAmount coffeeTwoM (chosenAmtStr coffeeTwoM) =
      generateTransactionIdSingle coffeeSingleM :=
  identity_c1.2.2 coffeeTwoM coffeeSingleM (by decide) (by decide) (by decide)
    (by decide)

set_option maxRecDepth 1000000 in
/-- C2 counterexample: for the parsed coffee transaction with its identity
absent, the Import Merger's recomputation hashes
`2025-03-14-COFFEE SHOP-450` (ISO date, full description, unsigned stored
cents) while the parser's scheme hashed `03-14-4.50-COFFEE SHOP`; the two
24-character identifiers differ, so the recomputed id is not the id the
parser would have assigned. -/
theorem merger_c2_counterexample :
    (twoColumnPass 2025 coffeeLine).map
        (fun t => (t.date, t.description, t.amountCents, t.type, t.externalId)) =
      [(coffeePrepared.date, coffeePrepared.description, coffeePrepared.amountCents,
        coffeePrepared.type, some "e1073b7d80a272dd043c4e6f")] ∧
    (importRow "acct" coffeePrepared).externalId = "8d25260c2105580cf9a18a82" ∧
    ("8d25260c2105580cf9a18a82" : String) ≠ "e1073b7d80a272dd043c4e6f" := by decide

/-- C2 (amended: the merger's recomputation is deterministic but follows its
own composite — ISO date, full description, and the unsigned stored
`amountCents` — rather than the parser's §4.4 composite): an absent
externalId is replaced by the sha256-prefix digest of
`date-description-amountCents`, and a present externalId is kept verbatim. -/
theorem merger_c2 (accountId : String) (tx : PreparedTransaction) :
    (tx.externalId = none →
      (importRow accountId tx).externalId =
        hashTransactionId
          (tx.date ++ "-" ++ tx.description ++ "-" ++ toString tx.amountCents)) ∧
    (∀ s, tx.externalId = some s → (importRow accountId tx).externalId = s) := by
  constructor
  · intro h
    rw [importRow]
    simp [h, stableExternalId]
  · intro s h
    rw [importRow]
    simp [h]

/-- Witness for C2: the merger recomputes the coffee transaction's absent
identity as the digest of its own composite string. -/
theorem merger_c2_witness :
    (importRow "acct" coffeePrepared).externalId =
      hashTransactionId
        (coffeePrepared.date ++ "-" ++ coffeePrepared.description ++ "-" ++
          toString coffeePrepared.amountCents) :=
  (merger_c2 "acct" coffeePrepared).1 rfl

end FinanceBuddy
